import Mathlib

/-!
Verification of the SendGrid-CLI repository's address parsing, content
negotiation and request-building logic (package `cmd`, function `send` and
its helpers `createAddress`, `messageBodies`, attachment construction and
credential resolution), shallowly embedded from the Go source.
-/

set_option linter.unusedVariables false

/-- Error kinds for the fatal terminations in the `cmd` package.  Each
constructor corresponds to one `log.Fatal` site of the source. -/
inductive Err where
  | invalidAddress
  | missingSubject
  | missingRecipient
  | missingBody
  | tooManyArguments
  | missingCredentials
  | fileRead
  | badSubstitution
  deriving DecidableEq, Repr

/-- The `mail.Email` structure of the sendgrid-go helper: a display name and
an address, as built by `mail.NewEmail(name, address)`. -/
structure Email where
  name : String
  address : String
  deriving DecidableEq, Repr

/-- A file of the local filesystem, with its content viewed as text (for the
body files read by `readFile`) and as raw bytes (for attachments read by
`ioutil.ReadFile`); each byte is a `Nat` below 256. -/
structure FileContent where
  text : String
  bytes : List Nat
  deriving DecidableEq, Repr

/-- The `mail.Attachment` structure as populated by `send`: MIME type,
disposition, filename and base64-encoded content. -/
structure Attachment where
  attType : String
  disposition : String
  filename : String
  content : String
  deriving DecidableEq, Repr

/-- One content part of the v3 payload (`mail.Content`): a MIME type tag and
a value. -/
structure ContentPart where
  mimeType : String
  value : String
  deriving DecidableEq, Repr

/-- The single personalization block of the message.  The recipient lists
hold `Option Email` because the Go slices hold pointers that can be nil:
`make([]*mail.Email, n)` yields n nil entries. -/
structure Personalization where
  tos : List (Option Email)
  ccs : List (Option Email)
  substitutions : List (String × String)
  deriving DecidableEq, Repr

/-- The assembled `mail.SGMailV3` message. -/
structure SGMail where
  fromAddr : Option Email
  subject : String
  personalizations : List Personalization
  content : List ContentPart
  attachments : List Attachment
  templateID : String
  deriving DecidableEq, Repr

/-- The flag values handed to `send` (after cobra/viper resolution, which is
out of scope): each field mirrors one persistent flag of `RootCmd`. -/
structure Flags where
  fromAddr : String
  subject : String
  toRaw : List String
  ccRaw : List String
  htmlFile : String
  plainFile : String
  templateID : String
  key : String
  user : String
  password : String
  att : List String
  sub : List String
  deriving Repr

/-- Character cut set of `strings.Trim(p, " ><")` in `createAddress`. -/
def isCut (c : Char) : Bool := c == ' ' || c == '>' || c == '<'

/-- `strings.Trim`: remove all leading and all trailing characters of the
cut set. -/
def trimChars (p : Char → Bool) (l : List Char) : List Char :=
  ((l.dropWhile p).reverse.dropWhile p).reverse

/-- String view of `trimChars`, as applied to each split part. -/
def goTrim (p : Char → Bool) (s : String) : String :=
  String.mk (trimChars p s.toList)

/-- `strings.Split(raw, " <")`: cut the character list at every occurrence
of the two-character separator `' '` `'<'`, leftmost first, consuming the
separator.  The accumulator holds the current token reversed. -/
def splitAux : List Char → List Char → List (List Char)
  | acc, [] => [acc.reverse]
  | acc, [c] => [(c :: acc).reverse]
  | acc, c1 :: c2 :: rest =>
    if c1 == ' ' && c2 == '<' then acc.reverse :: splitAux [] rest
    else splitAux (c1 :: acc) (c2 :: rest)

/-- The parts of `strings.Split(raw, " <")` as strings. -/
def splitParts (s : String) : List String :=
  (splitAux [] s.toList).map String.mk

/-- Decides that a character list has no occurrence of the separator
`" <"`, i.e. no `' '` immediately followed by `'<'`. -/
def noSep : List Char → Bool
  | [] => true
  | [_] => true
  | c1 :: c2 :: rest => !(c1 == ' ' && c2 == '<') && noSep (c2 :: rest)

/-- `createAddress` of `cmd/root.go`: split the raw value on `" <"`, reject
an empty input or an empty first part, trim every part of `" ><"`, and use
part 0 as the name with part 0 (single part) or part 1 (two or more parts)
as the address; parts beyond index 1 are dropped. -/
def createAddress (raw : String) : Except Err Email :=
  if raw = "" then .error .invalidAddress
  else
    let parts0 := splitParts raw
    if parts0.length = 0 ∨ parts0.getD 0 "" = "" then .error .invalidAddress
    else
      let parts := parts0.map (goTrim isCut)
      if parts.length < 2 then .ok ⟨parts.getD 0 "", parts.getD 0 ""⟩
      else .ok ⟨parts.getD 0 "", parts.getD 1 ""⟩

/-- Word character of Go's regexp `\w`: ASCII letters, digits and
underscore. -/
def isWordChar (c : Char) : Bool := c.isAlphanum || c == '_'

/-- Matcher for the regular expression `\<[\w]{1,}[^>]*\>` used by
`messageBodies`: a match exists exactly when some `'<'` is immediately
followed by a word character and a `'>'` occurs somewhere later. -/
def hasTag : List Char → Bool
  | [] => false
  | [_] => false
  | c1 :: c2 :: rest =>
    (c1 == '<' && isWordChar c2 && rest.contains '>') || hasTag (c2 :: rest)

/-- `regexp.MatchString("\\<[\\w]{1,}[^>]*\\>", b)` on a string. -/
def containsHTMLTag (s : String) : Bool := hasTag s.toList

/-- Tag stripper: drop every `<...>` run, keeping the remaining text.  The
boolean records whether the scan is currently inside a tag. -/
def stripTagsAux : Bool → List Char → List Char
  | _, [] => []
  | true, c :: rest =>
    if c == '>' then stripTagsAux false rest else stripTagsAux true rest
  | false, c :: rest =>
    if c == '<' then stripTagsAux true rest else c :: stripTagsAux false rest

/-- Modelled from the external `jaytaylor/html2text` library (not part of
this repository): its `FromString` conversion, on the simple markup the
specification exercises, strips the tags and trims surrounding
whitespace. -/
def htmlToText (s : String) : String :=
  String.mk (trimChars Char.isWhitespace (stripTagsAux false s.toList))

/-- The scan loop of `messageBodies`: walk the arguments with their index,
and at the first argument matching the HTML pattern return the HTML body
together with the plain body the source selects (conversion for a single
argument, the other argument by position when two are given and it is
non-empty, empty otherwise). -/
def bodiesLoop (args : List String) : Nat → List String → Option (String × String)
  | _, [] => none
  | i, b :: rest =>
    if containsHTMLTag b then
      some (b,
        if args.length = 1 then htmlToText b
        else if i = 0 ∧ args.getD 1 "" ≠ "" then args.getD 1 ""
        else if i = 1 ∧ args.getD 0 "" ≠ "" then args.getD 0 ""
        else "")
    else bodiesLoop args (i + 1) rest

/-- `messageBodies` of `cmd/root.go`: fatal on an empty argument list, scan
for an HTML-looking argument, and otherwise fall back to the first argument
as the plain body, fatal when it is empty.  Returns
`(htmlBody, plainBody)`. -/
def messageBodies (args : List String) : Except Err (String × String) :=
  if args.length = 0 then .error .missingBody
  else
    match bodiesLoop args 0 args with
    | some r => .ok r
    | none =>
      if args.getD 0 "" = "" then .error .missingBody
      else .ok ("", args.getD 0 "")

/-- `readFile` of the source on the text view of the filesystem: a missing
file is the fatal read failure. -/
def readFileText (fs : String → Option FileContent) (fn : String) :
    Except Err String :=
  match fs fn with
  | some fc => .ok fc.text
  | none => .error .fileRead

/-- The content-negotiation block of `send` (lines deciding `htmlContent`
and `plainTextContent`): body files win, else the positional arguments are
scanned when the template id is empty or arguments exist, else the fixed
placeholder comment stands in for the template-supplied body.  The inner
missing-content fatal is kept although its branch is unreachable. -/
def negotiate (fs : String → Option FileContent)
    (htmlFilename plainFilename templateID : String) (args : List String) :
    Except Err (String × String) :=
  if htmlFilename ≠ "" ∨ plainFilename ≠ "" then do
    let htmlContent ←
      if htmlFilename ≠ "" then readFileText fs htmlFilename else pure ""
    let plainContent ←
      if plainFilename ≠ "" then readFileText fs plainFilename
      else pure (htmlToText htmlContent)
    pure (htmlContent, plainContent)
  else if templateID = "" ∨ args.length > 0 then
    messageBodies args
  else if templateID = "" then .error .missingBody
  else .ok ("<!-- Dummy Content -->", "")

/-- The credential block of `send`: the environment key is consulted only
when both the key flag and the user flag are empty, and the run aborts when
the environment key is also empty.  The password flag is never examined.
Returns the effective API key (empty when the legacy user path is taken). -/
def resolveCredentials (key user env : String) : Except Err String :=
  if key = "" ∧ user = "" then
    if env = "" then .error .missingCredentials else .ok env
  else .ok key

/-- Modelled from the Go standard library `mime.TypeByExtension` (not part
of this repository): look up a file extension that begins with a leading
dot in the built-in table, returning the empty string when the argument is
not a known extension. -/
def mimeTypeByExtension (ext : String) : String :=
  if ext = ".css" then "text/css; charset=utf-8"
  else if ext = ".gif" then "image/gif"
  else if ext = ".htm" then "text/html; charset=utf-8"
  else if ext = ".html" then "text/html; charset=utf-8"
  else if ext = ".jpeg" then "image/jpeg"
  else if ext = ".jpg" then "image/jpeg"
  else if ext = ".js" then "text/javascript; charset=utf-8"
  else if ext = ".json" then "application/json"
  else if ext = ".pdf" then "application/pdf"
  else if ext = ".png" then "image/png"
  else if ext = ".svg" then "image/svg+xml"
  else if ext = ".txt" then "text/plain; charset=utf-8"
  else if ext = ".xml" then "text/xml; charset=utf-8"
  else ""

/-- The base64 standard alphabet. -/
def base64Alphabet : List Char :=
  "ABCDEFGHIJKLMNOPQRSTUVWXYZabcdefghijklmnopqrstuvwxyz0123456789+/".toList

/-- Character of the base64 alphabet at a six-bit index. -/
def b64c (n : Nat) : Char := base64Alphabet.getD n 'A'

/-- `base64.StdEncoding.EncodeToString`: encode byte triples into four
alphabet characters, padding a trailing single or double byte with `=`. -/
def base64EncodeList : List Nat → List Char
  | [] => []
  | [b1] =>
    [b64c (b1 % 256 / 4), b64c (b1 % 256 % 4 * 16), '=', '=']
  | [b1, b2] =>
    [b64c (b1 % 256 / 4), b64c (b1 % 256 % 4 * 16 + b2 % 256 / 16),
     b64c (b2 % 256 % 16 * 4), '=']
  | b1 :: b2 :: b3 :: rest =>
    b64c (b1 % 256 / 4) :: b64c (b1 % 256 % 4 * 16 + b2 % 256 / 16) ::
    b64c (b2 % 256 % 16 * 4 + b3 % 256 / 64) :: b64c (b3 % 256 % 64) ::
    base64EncodeList rest

/-- String view of the base64 encoding. -/
def base64Encode (bs : List Nat) : String := String.mk (base64EncodeList bs)

/-- The attachment block of `send`, for one `--att` value: read the file's
bytes (fatal when unreadable) and populate the attachment.  The source
passes the whole flag value, not its extension, to the MIME lookup. -/
def buildAttachment (fs : String → Option FileContent) (fn : String) :
    Except Err Attachment :=
  match fs fn with
  | none => .error .fileRead
  | some fc =>
    .ok { attType := mimeTypeByExtension fn
        , disposition := "attachment"
        , filename := fn
        , content := base64Encode fc.bytes }

/-- `strings.SplitN(s, "=", 2)`: split at the first `'='`, `none` when the
string has no `'='`. -/
def splitEq : List Char → Option (List Char × List Char)
  | [] => none
  | c :: rest =>
    if c == '=' then some ([], rest)
    else (splitEq rest).map (fun p => (c :: p.1, p.2))

/-- One `--sub` value of the template block: `key=value` becomes the
substitution `[%key%]` to `value`; a value without `'='` is fatal. -/
def parseSubstitution (s : String) : Except Err (String × String) :=
  match splitEq s.toList with
  | some (k, v) => .ok ("[%" ++ String.mk k ++ "%]", String.mk v)
  | none => .error .badSubstitution

/-- The `send` command of the `cmd` package, embedded in source order:
argument-count check, from address, subject, recipients, the cc block whose
loop re-parses the to list and leaves every cc slot nil, content
negotiation, credential resolution, message assembly, attachments and
template substitutions.  The result pairs the dispatched message with a
flag marking the legacy (empty effective key) path; every `.error` outcome
is a fatal termination before the network call. -/
def sendPipeline (fs : String → Option FileContent) (env : String)
    (flags : Flags) (args : List String) : Except Err (SGMail × Bool) :=
  if args.length > 2 then .error .tooManyArguments
  else match createAddress flags.fromAddr with
  | .error e => .error e
  | .ok fromA =>
    if flags.subject = "" then .error .missingSubject
    else if flags.toRaw = [] then .error .missingRecipient
    else match flags.toRaw.mapM createAddress with
    | .error e => .error e
    | .ok _toFirstPass =>
      let ccAddresses : List (Option Email) :=
        List.replicate flags.ccRaw.length none
      match flags.toRaw.mapM createAddress with
      | .error e => .error e
      | .ok toAddresses =>
        match negotiate fs flags.htmlFile flags.plainFile flags.templateID args with
        | .error e => .error e
        | .ok (htmlContent, plainContent) =>
          match resolveCredentials flags.key flags.user env with
          | .error e => .error e
          | .ok apiKey =>
            match toAddresses with
            | [] => .error .missingRecipient
            | to0 :: toRest =>
              match flags.att.mapM (buildAttachment fs) with
              | .error e => .error e
              | .ok atts =>
                match (if flags.templateID ≠ "" then
                        flags.sub.mapM parseSubstitution
                       else .ok []) with
                | .error e => .error e
                | .ok subs =>
                  .ok ({ fromAddr := some fromA
                       , subject := flags.subject
                       , personalizations :=
                           [{ tos := some to0 :: toRest.map some
                            , ccs := ccAddresses
                            , substitutions := subs }]
                       , content :=
                           (if plainContent ≠ ""
                            then [⟨"text/plain", plainContent⟩] else [])
                           ++ (if htmlContent ≠ ""
                               then [⟨"text/html", htmlContent⟩] else [])
                       , attachments := atts
                       , templateID := flags.templateID }, apiKey == "")

/-- The credential-absence condition as the specification words it: no API
key through the flag or the environment variable, and no username/password
pair.  Stated for comparison with `resolveCredentials`, which embeds the
source's check. -/
def specMissingCredentials (key user password env : String) : Bool :=
  (key == "" && env == "") && !(user != "" && password != "")

/-- A string neither begins nor ends with one of the trimmed characters
(space, `'<'`, `'>'`); an empty string satisfies this vacuously. -/
def noEdge (s : String) : Prop :=
  (∀ c, s.toList.head? = some c → isCut c = false) ∧
  (∀ c, s.toList.getLast? = some c → isCut c = false)

deriving instance DecidableEq for Except

theorem head?_dropWhile_false {α : Type} (p : α → Bool) (l : List α) (c : α)
    (h : (l.dropWhile p).head? = some c) : p c = false := by
  have hx := List.head?_dropWhile_not p l
  rw [h] at hx
  exact hx

theorem trimChars_getLast (p : Char → Bool) (l : List Char) (c : Char)
    (h : (trimChars p l).getLast? = some c) : p c = false := by
  unfold trimChars at h
  rw [List.getLast?_reverse] at h
  exact head?_dropWhile_false p _ c h

theorem trimChars_head (p : Char → Bool) (l : List Char) (c : Char)
    (h : (trimChars p l).head? = some c) : p c = false := by
  unfold trimChars at h
  rw [List.head?_reverse] at h
  have hk : ((l.dropWhile p).reverse).getLast? = some c := by
    have hd := List.takeWhile_append_dropWhile (p := p) (l := (l.dropWhile p).reverse)
    calc ((l.dropWhile p).reverse).getLast?
        = ((((l.dropWhile p).reverse).takeWhile p)
            ++ (((l.dropWhile p).reverse).dropWhile p)).getLast? := by rw [hd]
      _ = some c := by rw [List.getLast?_append, h]; rfl
  rw [List.getLast?_reverse] at hk
  exact head?_dropWhile_false p _ c hk

theorem splitAux_noSep : ∀ (l : List Char), noSep l = true →
    ∀ acc, splitAux acc l = [acc.reverse ++ l] := by
  intro l
  induction l with
  | nil => intro _ acc; simp [splitAux]
  | cons c1 tail ih =>
    intro h acc
    match tail with
    | [] => simp [splitAux]
    | c2 :: rest =>
      have hcond : (c1 == ' ' && c2 == '<') = false := by
        by_contra hc
        simp only [noSep, Bool.and_eq_true, Bool.not_eq_true'] at h
        rcases h with ⟨h1, _⟩
        exact hc (by simpa using h1)
      have htail : noSep (c2 :: rest) = true := by
        simp only [noSep, Bool.and_eq_true] at h
        exact h.2
      simp only [splitAux, hcond, Bool.false_eq_true, if_false]
      rw [ih htail (c1 :: acc)]
      simp

theorem splitParts_noSep (raw : String) (h : noSep raw.toList = true) :
    splitParts raw = [raw] := by
  unfold splitParts
  rw [splitAux_noSep raw.toList h []]
  simp

theorem noEdge_empty : noEdge "" := by
  constructor <;> intro c hc <;> simp at hc

theorem noEdge_goTrim (s : String) : noEdge (goTrim isCut s) := by
  constructor
  · intro c hc
    exact trimChars_head isCut s.toList c hc
  · intro c hc
    exact trimChars_getLast isCut s.toList c hc

theorem noEdge_getD_map (l : List String) (i : Nat) :
    noEdge ((l.map (goTrim isCut)).getD i "") := by
  rw [List.getD_eq_getElem?_getD, List.getElem?_map]
  cases h : l[i]? with
  | none => simpa [h] using noEdge_empty
  | some x => simpa [h] using noEdge_goTrim x

theorem bodiesLoop_none_iff (args : List String) :
    ∀ (l : List String) (i : Nat),
      bodiesLoop args i l = none ↔ ∀ a ∈ l, containsHTMLTag a = false := by
  intro l
  induction l with
  | nil => intro i; simp [bodiesLoop]
  | cons b rest ih =>
    intro i
    by_cases hb : containsHTMLTag b = true
    · simp [bodiesLoop, hb]
    · have hb' : containsHTMLTag b = false := by simpa using hb
      simp [bodiesLoop, hb', ih (i + 1)]

theorem messageBodies_missingBody_iff (args : List String) :
    messageBodies args = .error .missingBody ↔
      (args = [] ∨
       (args ≠ [] ∧ (∀ a ∈ args, containsHTMLTag a = false) ∧
        args.getD 0 "" = "")) := by
  unfold messageBodies
  by_cases h0 : args.length = 0
  · have : args = [] := List.length_eq_zero.mp h0
    simp [h0, this]
  · have hne : args ≠ [] := by
      intro hc; exact h0 (by simp [hc])
    rw [if_neg h0]
    cases hloop : bodiesLoop args 0 args with
    | some r =>
      have hnone : ¬ (∀ a ∈ args, containsHTMLTag a = false) := by
        intro hall
        rw [(bodiesLoop_none_iff args args 0).mpr hall] at hloop
        exact Option.noConfusion hloop
      simp [hne, hnone]
    | none =>
      have hall : ∀ a ∈ args, containsHTMLTag a = false :=
        (bodiesLoop_none_iff args args 0).mp hloop
      by_cases hd : args.getD 0 "" = ""
      · simp only [if_pos hd]
        simp only [hne, false_or, true_iff, iff_true]
        exact ⟨hne, hall, hd⟩
      · simp only [if_neg hd]
        constructor
        · intro hc; exact absurd hc (by simp)
        · rintro (hc | ⟨_, _, hc⟩)
          · exact absurd hc hne
          · exact absurd hc hd

theorem tag_ne_empty (s : String) (h : containsHTMLTag s = true) : s ≠ "" := by
  intro hc
  subst hc
  exact absurd h (by decide)

theorem negotiate_files_not_missingBody (fs : String → Option FileContent)
    (hf pf tid : String) (args : List String) (hfiles : hf ≠ "" ∨ pf ≠ "") :
    negotiate fs hf pf tid args ≠ .error .missingBody := by
  unfold negotiate
  rw [if_pos hfiles]
  by_cases hh : hf ≠ ""
  · cases hread : fs hf with
    | none =>
      simp [hh, readFileText, hread, Except.bind, bind, pure, Except.pure]
    | some fc =>
      by_cases hp : pf ≠ ""
      · cases hpread : fs pf with
        | none =>
          simp [hh, hp, readFileText, hread, hpread, Except.bind, bind, pure,
            Except.pure]
        | some fc2 =>
          simp [hh, hp, readFileText, hread, hpread, Except.bind, bind, pure,
            Except.pure]
      · simp [hh, hp, readFileText, hread, Except.bind, bind, pure, Except.pure]
  · have hp : pf ≠ "" := hfiles.resolve_left hh
    cases hpread : fs pf with
    | none =>
      simp [hh, hp, readFileText, hpread, Except.bind, bind, pure, Except.pure]
    | some fc2 =>
      simp [hh, hp, readFileText, hpread, Except.bind, bind, pure, Except.pure]

/-- Claim C1 (code defect): building the message with two to-addresses and
one cc-address yields a single personalization whose to-list holds the two
parsed to-addresses, but whose cc-list holds one nil entry instead of the
parsed cc-address: the cc block's loop iterates the to-addresses and
rewrites the to-list, so the allocated cc slots are never filled and the
parsed cc recipient never reaches the message. -/
theorem sendPipeline_cc_lost :
    sendPipeline (fun _ => none) ""
      { fromAddr := "f@x", subject := "s", toRaw := ["a@x", "b@y"]
      , ccRaw := ["c@z"], htmlFile := "", plainFile := "", templateID := ""
      , key := "K", user := "", password := "", att := [], sub := [] }
      ["hello"] =
    .ok ({ fromAddr := some ⟨"f@x", "f@x"⟩
         , subject := "s"
         , personalizations :=
             [{ tos := [some ⟨"a@x", "a@x"⟩, some ⟨"b@y", "b@y"⟩]
              , ccs := [none]
              , substitutions := [] }]
         , content := [⟨"text/plain", "hello"⟩]
         , attachments := []
         , templateID := "" }, false) ∧
    (some (⟨"c@z", "c@z"⟩ : Email)) ∉ ([none] : List (Option Email)) := by
  refine ⟨by rfl, by decide⟩

/-- Claim C2 (counterexample): the raw value `"<a@b>"` is non-empty and has
no `" <"` substring, yet the parser returns name and address `"a@b"`, both
different from the raw value, because the single part is trimmed of
surrounding space and angle brackets. -/
theorem createAddress_trim_counter :
    createAddress "<a@b>" = .ok ⟨"a@b", "a@b"⟩ ∧
    ("a@b" : String) ≠ "<a@b>" ∧ ("<a@b>" : String) ≠ "" ∧
    noSep "<a@b>".toList = true := by
  refine ⟨by rfl, by decide, by decide, by decide⟩

/-- Claim C2 (amended): for every non-empty raw value without the substring
`" <"`, the parser returns an address whose display name and address both
equal the raw value trimmed of all leading and trailing space, `'<'` and
`'>'` characters. -/
theorem createAddress_noSep (raw : String) (h1 : raw ≠ "")
    (h2 : noSep raw.toList = true) :
    createAddress raw = .ok ⟨goTrim isCut raw, goTrim isCut raw⟩ := by
  unfold createAddress
  rw [if_neg h1]
  simp only [splitParts_noSep raw h2]
  simp [h1]

/-- Claim C2 witness: on the concrete input `"a@b"` the amended statement
instantiates with its hypotheses discharged. -/
theorem createAddress_noSep_witness :
    createAddress "a@b" = .ok ⟨goTrim isCut "a@b", goTrim isCut "a@b"⟩ :=
  createAddress_noSep "a@b" (by decide) (by decide)

/-- Claim C3: for the single positional argument `"<p>hi</p>"` and no body
files, negotiation returns the argument unchanged as the HTML body together
with the non-empty plain text produced by the HTML-to-plain-text
conversion. -/
theorem negotiate_single_html :
    negotiate (fun _ => none) "" "" "" ["<p>hi</p>"] =
      .ok ("<p>hi</p>", htmlToText "<p>hi</p>") ∧
    htmlToText "<p>hi</p>" = "hi" ∧ ("hi" : String) ≠ "" := by
  refine ⟨by rfl, by rfl, by decide⟩

/-- Claim C4: with a non-empty template id, no body files and no positional
arguments, negotiation succeeds with the fixed placeholder HTML comment as
the HTML content instead of a missing-body failure. -/
theorem negotiate_template_placeholder (fs : String → Option FileContent)
    (tid : String) (h : tid ≠ "") :
    negotiate fs "" "" tid [] = .ok ("<!-- Dummy Content -->", "") := by
  unfold negotiate
  rw [if_neg (by push_neg; exact ⟨rfl, rfl⟩)]
  rw [if_neg (by push_neg; exact ⟨h, by simp⟩)]
  rw [if_neg h]

/-- Claim C4 witness: the placeholder result at the concrete template id
`"T1"`. -/
theorem negotiate_template_placeholder_witness :
    negotiate (fun _ => none) "" "" "T1" [] =
      .ok ("<!-- Dummy Content -->", "") :=
  negotiate_template_placeholder (fun _ => none) "T1" (by decide)

/-- Claim C5 (counterexample): with one positional argument that is the
empty string and a template id present, negotiation still fails with the
missing-body error, contradicting the claimed equivalence with the absence
of positional arguments, body files and template id. -/
theorem negotiate_missingBody_counter :
    negotiate (fun _ => none) "" "" "T1" [""] = .error .missingBody ∧
    ([""] : List String) ≠ [] ∧ ("T1" : String) ≠ "" := by
  refine ⟨by rfl, by decide, by decide⟩

/-- Claim C5 (amended): negotiation fails with the missing-body error
exactly when no body files are given and either there are no positional
arguments and no template id, or positional arguments exist, none of them
matches the HTML pattern, and the first one is empty.  An error result of
the negotiation stage aborts the run before the network call of the
pipeline. -/
theorem negotiate_missingBody_iff (fs : String → Option FileContent)
    (hf pf tid : String) (args : List String) :
    negotiate fs hf pf tid args = .error .missingBody ↔
      (hf = "" ∧ pf = "" ∧
       ((args = [] ∧ tid = "") ∨
        (args ≠ [] ∧ (∀ a ∈ args, containsHTMLTag a = false) ∧
         args.getD 0 "" = ""))) := by
  by_cases hfiles : hf ≠ "" ∨ pf ≠ ""
  · have hne := negotiate_files_not_missingBody fs hf pf tid args hfiles
    constructor
    · intro hc; exact absurd hc hne
    · rintro ⟨hh, hp, _⟩
      rcases hfiles with hx | hx
      · exact absurd hh hx
      · exact absurd hp hx
  · push_neg at hfiles
    obtain ⟨hh, hp⟩ := hfiles
    unfold negotiate
    rw [if_neg (by push_neg; exact ⟨hh, hp⟩)]
    by_cases hguard : tid = "" ∨ args.length > 0
    · rw [if_pos hguard]
      rw [messageBodies_missingBody_iff args]
      constructor
      · rintro (hargs | hrest)
        · subst hargs
          rcases hguard with htid | hlen
          · exact ⟨hh, hp, Or.inl ⟨rfl, htid⟩⟩
          · exact absurd hlen (by simp)
        · exact ⟨hh, hp, Or.inr hrest⟩
      · rintro ⟨_, _, (⟨hargs, _⟩ | hrest)⟩
        · exact Or.inl hargs
        · exact Or.inr hrest
    · push_neg at hguard
      obtain ⟨htid, hlen⟩ := hguard
      rw [if_neg (by push_neg; exact ⟨htid, hlen⟩)]
      rw [if_neg htid]
      constructor
      · intro hc; exact absurd hc (by simp)
      · rintro ⟨_, _, (⟨_, htid2⟩ | ⟨hargsne, _, _⟩)⟩
        · exact absurd htid2 htid
        · have : args = [] := by
            cases args with
            | nil => rfl
            | cons a l => simp at hlen
          exact absurd this hargsne

/-- Claim C6: any invocation with more than two positional arguments fails
with the too-many-arguments error as the pipeline's very first check,
before the message is built and before any network call. -/
theorem sendPipeline_tooMany (fs : String → Option FileContent) (env : String)
    (flags : Flags) (args : List String) (h : args.length > 2) :
    sendPipeline fs env flags args = .error .tooManyArguments := by
  unfold sendPipeline
  rw [if_pos h]

/-- Claim C6 witness: three positional arguments at concrete flags. -/
theorem sendPipeline_tooMany_witness :
    sendPipeline (fun _ => none) ""
      { fromAddr := "f@x", subject := "s", toRaw := ["a@x"], ccRaw := []
      , htmlFile := "", plainFile := "", templateID := "", key := "K"
      , user := "", password := "", att := [], sub := [] }
      ["a", "b", "c"] = .error .tooManyArguments :=
  sendPipeline_tooMany (fun _ => none) "" _ ["a", "b", "c"] (by decide)

/-- Claim C7 (counterexample): with an empty key flag, empty environment
key, a non-empty username and an empty password, the specification's
credential-absence condition holds (no key, no username/password pair),
yet the credential check does not fail: the password is never consulted. -/
theorem resolveCredentials_counter :
    specMissingCredentials "" "u" "" "" = true ∧
    resolveCredentials "" "u" "" ≠ .error .missingCredentials := by
  constructor
  · decide
  · decide

/-- Claim C7 (amended): the credential check fails with the
missing-credentials error exactly when the key flag, the user flag and the
environment key are all empty; otherwise it succeeds and the run proceeds
to dispatch.  The password flag plays no part in the decision. -/
theorem resolveCredentials_missing_iff (key user env : String) :
    (resolveCredentials key user env = .error .missingCredentials ↔
      (key = "" ∧ user = "" ∧ env = "")) ∧
    ((∃ k, resolveCredentials key user env = .ok k) ↔
      ¬(key = "" ∧ user = "" ∧ env = "")) := by
  unfold resolveCredentials
  by_cases h1 : key = "" ∧ user = ""
  · by_cases h2 : env = ""
    · simp [h1, h2]
    · simp [h1, h2]
  · constructor
    · simp only [if_neg h1]
      constructor
      · intro hc; exact absurd hc (by simp)
      · rintro ⟨hk, hu, _⟩; exact absurd ⟨hk, hu⟩ h1
    · simp only [if_neg h1]
      constructor
      · rintro _ ⟨hk, hu, _⟩; exact absurd ⟨hk, hu⟩ h1
      · intro _; exact ⟨key, rfl⟩

/-- Claim C8 (code defect): for the readable file `"doc.pdf"` with bytes
1, 2, 3, the attachment carries the base64 content `"AQID"`, disposition
`"attachment"` and the flag value as filename, but its MIME type is the
empty string: the source hands the whole filename to the extension lookup,
which would return `"application/pdf"` for the actual extension
`".pdf"`. -/
theorem attachment_mime_not_inferred :
    buildAttachment
        (fun fn => if fn = "doc.pdf" then some ⟨"", [1, 2, 3]⟩ else none)
        "doc.pdf" =
      .ok ⟨"", "attachment", "doc.pdf", "AQID"⟩ ∧
    mimeTypeByExtension ".pdf" = "application/pdf" ∧
    mimeTypeByExtension "doc.pdf" = "" := by
  refine ⟨by rfl, by rfl, by rfl⟩

/-- Claim C9: when both of two positional arguments match the HTML pattern,
the scan stops at the first, which becomes the HTML body, and the second
becomes the plain body by position even though it also looks like HTML. -/
theorem messageBodies_two_html (a b : String)
    (ha : containsHTMLTag a = true) (hb : containsHTMLTag b = true) :
    messageBodies [a, b] = .ok (a, b) := by
  have hbne : b ≠ "" := tag_ne_empty b hb
  simp [messageBodies, bodiesLoop, ha, hbne]

/-- Claim C9 witness: two concrete HTML-looking arguments. -/
theorem messageBodies_two_html_witness :
    messageBodies ["<p>x</p>", "<b>y</b>"] = .ok ("<p>x</p>", "<b>y</b>") :=
  messageBodies_two_html "<p>x</p>" "<b>y</b>" (by decide) (by decide)

/-- Claim C10: every address the parser accepts has a display name and an
address that neither begin nor end with a space, `'<'` or `'>'`, because
each split part is trimmed of exactly those characters. -/
theorem createAddress_trimmed (raw : String) (e : Email)
    (h : createAddress raw = .ok e) : noEdge e.name ∧ noEdge e.address := by
  unfold createAddress at h
  by_cases h0 : raw = ""
  · simp [h0] at h
  rw [if_neg h0] at h
  by_cases h1 : (splitParts raw).length = 0 ∨ (splitParts raw).getD 0 "" = ""
  · simp only [if_pos h1] at h
    exact absurd h (by simp)
  rw [if_neg h1] at h
  by_cases h2 : ((splitParts raw).map (goTrim isCut)).length < 2
  · rw [if_pos h2] at h
    injection h with h
    subst h
    exact ⟨noEdge_getD_map _ 0, noEdge_getD_map _ 0⟩
  · rw [if_neg h2] at h
    injection h with h
    subst h
    exact ⟨noEdge_getD_map _ 0, noEdge_getD_map _ 1⟩

/-- Claim C10 witness: the parse of `"A <b@c>"` yields clean edges on both
fields. -/
theorem createAddress_trimmed_witness :
    noEdge (Email.mk "A" "b@c").name ∧ noEdge (Email.mk "A" "b@c").address :=
  createAddress_trimmed "A <b@c>" ⟨"A", "b@c"⟩ (by rfl)
